import Mathlib

/-!
Verification of the power-log sampling and parsing pipeline of the
LM-benchmarking scripts: the telemetry line parsers
(`parse_powermetrics_log` in `bench_lmstudio_models.py` and
`bench_ollama_concurrent_models.py`, `parse_watts` in
`test_power_monitor.py`), the statistical reducer (`stats`), the
capability probe (`detect_samplers` / `detect_powermetrics_samplers`)
and the sampler controller (`PowerSampler.stop`).

Strings are modelled as `List Char`; Python floats as `ℚ` (every value
the parsers handle is a finite decimal, so rational arithmetic is
exact); a Python function that can raise an uncaught exception is
modelled as returning `Option`/`Except`, `none`/`error` meaning the
exception propagates out.
-/

set_option maxRecDepth 4000

namespace LMBench

/-! Character helpers.  `isPySpace` is the ASCII part of Python's
whitespace class used by `str.strip` and by the regex class `\s`;
`isWordChar` is the ASCII part of the regex class `\w` used by the
word boundary `\b`. -/

def isPySpace (c : Char) : Bool :=
  c == ' ' || c == '\t' || c == '\n' || c == '\r' || c == '\x0b' || c == '\x0c'

def isNumDot (c : Char) : Bool :=
  c.isDigit || c == '.'

def isWordChar (c : Char) : Bool :=
  c.isAlpha || c.isDigit || c == '_'

/-- Case-insensitive character comparison, as used by the `re.I` flag. -/
def isCIc (a b : Char) : Bool := a.toLower == b.toLower

/-- Case-insensitive "the pattern is a literal match at the start of the
text", the building block of the scans below (all the regexes are
literal except for the quantified pieces handled separately). -/
def startsWithCI : List Char → List Char → Bool
  | [], _ => true
  | _ :: _, [] => false
  | p :: ps, c :: cs => isCIc p c && startsWithCI ps cs

/-! ANSI escape stripping: `ansi_escape.sub("", s)` where the pattern is
ESC, a bracket, the class 0x30-0x3F starred, the class 0x20-0x2F
starred, then one final byte in 0x40-0x7E.  Since the three classes are
pairwise disjoint, the greedy matching never needs to backtrack, so
taking each run maximally is exact. -/

def isAnsiParam (c : Char) : Bool := 0x30 ≤ c.toNat && c.toNat ≤ 0x3F
def isAnsiInter (c : Char) : Bool := 0x20 ≤ c.toNat && c.toNat ≤ 0x2F
def isAnsiFinal (c : Char) : Bool := 0x40 ≤ c.toNat && c.toNat ≤ 0x7E

/-- After ESC and the bracket, try to consume the parameter run, the
intermediate run and the final byte; `some rest` returns the text after
the escape sequence. -/
def ansiTail (cs : List Char) : Option (List Char) :=
  let r1 := cs.dropWhile isAnsiParam
  let r2 := r1.dropWhile isAnsiInter
  match r2 with
  | c :: rest => if isAnsiFinal c then some rest else none
  | [] => none

/-- Fuelled worker for `ansiSub`; each step consumes at least one
character, so fuel equal to the length of the input suffices and the
fuel-exhausted clause is never reached when called through `ansiSub`. -/
def ansiSubF : Nat → List Char → List Char
  | 0, s => s
  | _ + 1, [] => []
  | fuel + 1, c :: rest =>
    if c = '\x1B' then
      match rest with
      | '[' :: rest2 =>
        match ansiTail rest2 with
        | some rem => ansiSubF fuel rem
        | none => c :: ansiSubF fuel rest
      | _ => c :: ansiSubF fuel rest
    else c :: ansiSubF fuel rest

/-- `ansi_escape.sub("", s)`: delete every ANSI escape sequence,
scanning left to right, non-overlapping. -/
def ansiSub (s : List Char) : List Char := ansiSubF s.length s

/-- Python `str.strip()` (ASCII whitespace model). -/
def pstrip (l : List Char) : List Char :=
  ((l.dropWhile isPySpace).reverse.dropWhile isPySpace).reverse

/-! Numeric conversion.  The regexes capture group 1 with `[\d.]+`, and
the code applies Python `float` to it.  `float` accepts such a text iff
it contains at least one digit and at most one dot; otherwise it raises
`ValueError` (e.g. on `"1.2.3"` or `"."`), modelled by `none`. -/

def digitsVal (l : List Char) : Nat :=
  l.foldl (fun a c => 10 * a + (c.toNat - 48)) 0

/-- Value of a digits-and-dots decimal text (integer part plus
fractional part). -/
def ratOfNumText (cs : List Char) : ℚ :=
  let ip := cs.takeWhile (fun c => c != '.')
  let fp := (cs.dropWhile (fun c => c != '.')).drop 1
  (digitsVal ip : ℚ) + (digitsVal fp : ℚ) / (10 : ℚ) ^ fp.length

/-- Python `float` applied to a text matched by `[\d.]+`:
`none` models the `ValueError` the parsers do not catch. -/
def pyFloat (cs : List Char) : Option ℚ :=
  if cs.any Char.isDigit ∧ cs.count '.' ≤ 1 then some (ratOfNumText cs) else none

/-! Channels and the literal pieces of the regexes. -/

inductive Chan where
  | CPU
  | GPU
  | ANE
deriving DecidableEq

def cpuLabel : List Char := ['C', 'P', 'U']
def gpuLabel : List Char := ['G', 'P', 'U']
def aneLabel : List Char := ['A', 'N', 'E']

def chanLabel : Chan → List Char
  | .CPU => cpuLabel
  | .GPU => gpuLabel
  | .ANE => aneLabel

def powerPat : List Char := ['P', 'o', 'w', 'e', 'r', ':']

def avgPat : List Char :=
  ['A', 'v', 'e', 'r', 'a', 'g', 'e', ' ', 'p', 'o', 'w', 'e', 'r', ':']

/-- The tail `\s*([\d.]+)\s*(m?W)` of both reading regexes, matched at
the start of `cs`; returns (group 1, group 2).  The greedy `\s*` and
`[\d.]+` runs are exact: shrinking a run would put a space (resp. a
digit or dot) where `[\d.]+` (resp. `m?W`) must match, which is
impossible, so no backtracking into the runs can succeed. -/
def matchTail (cs : List Char) : Option (List Char × List Char) :=
  let cs1 := cs.dropWhile isPySpace
  let num := cs1.takeWhile isNumDot
  let rest := cs1.dropWhile isNumDot
  if num = [] then none
  else
    match rest.dropWhile isPySpace with
    | c1 :: c2 :: _ =>
      if isCIc c1 'm' && isCIc c2 'w' then some (num, [c1, c2])
      else if isCIc c1 'w' then some (num, [c1])
      else none
    | [c1] => if isCIc c1 'w' then some (num, [c1]) else none
    | [] => none

/-- The lazy `.*?Power:\s*([\d.]+)\s*(m?W)` part of the direct-reading
regex: find the leftmost `Power:` (case-insensitively) whose tail
matches; `.` does not match a newline, so the scan stops at `'\n'`. -/
def findPowerNum : List Char → Option (List Char × List Char)
  | [] => none
  | c :: rest =>
    if startsWithCI powerPat (c :: rest) then
      match matchTail ((c :: rest).drop powerPat.length) with
      | some r => some r
      | none => if c = '\n' then none else findPowerNum rest
    else if c = '\n' then none else findPowerNum rest

/-- `re.search(fr"{label}.*?Power:\s*([\d.]+)\s*(m?W)", s, re.I)`:
scan for the leftmost start position where the label matches and the
rest of the pattern succeeds after it. -/
def searchDirect (label : List Char) : List Char → Option (List Char × List Char)
  | [] => none
  | c :: rest =>
    if startsWithCI label (c :: rest) then
      match findPowerNum ((c :: rest).drop label.length) with
      | some r => some r
      | none => searchDirect label rest
    else searchDirect label rest

/-- `re.search(r"Average power:\s*([\d.]+)\s*(m?W)", s, re.I)`. -/
def searchAvg : List Char → Option (List Char × List Char)
  | [] => none
  | c :: rest =>
    if startsWithCI avgPat (c :: rest) then
      match matchTail ((c :: rest).drop avgPat.length) with
      | some r => some r
      | none => searchAvg rest
    else searchAvg rest

/-- Section-header test of `bench_lmstudio_models.py`:
`re.match(r"^(CPU|GPU|ANE)\b", s, re.I)`, the matched label uppercased. -/
def headerLM (s : List Char) : Option Chan :=
  let boundary : Bool :=
    match s.drop 3 with
    | [] => true
    | c :: _ => !isWordChar c
  if startsWithCI cpuLabel s && boundary then some .CPU
  else if startsWithCI gpuLabel s && boundary then some .GPU
  else if startsWithCI aneLabel s && boundary then some .ANE
  else none

/-- Section-header test of `bench_ollama_concurrent_models.py`:
`re.match(r"^(CPU|GPU|ANE)", s, re.I)` — no word boundary. -/
def headerO (s : List Char) : Option Chan :=
  if startsWithCI cpuLabel s then some .CPU
  else if startsWithCI gpuLabel s then some .GPU
  else if startsWithCI aneLabel s then some .ANE
  else none

/-- Section-header test of `test_power_monitor.py`'s `parse_watts`:
`re.search(r"^(CPU|GPU|ANE).*", s)` — case-sensitive, no word boundary. -/
def headerW (s : List Char) : Option Chan :=
  if cpuLabel.isPrefixOf s then some .CPU
  else if gpuLabel.isPrefixOf s then some .GPU
  else if aneLabel.isPrefixOf s then some .ANE
  else none

/-- Unit normalization applied to every recorded reading:
`unit = m.group(2).lower(); val / 1000.0 if unit == "mw" else val`. -/
def toWatts (unit : List Char) (v : ℚ) : ℚ :=
  if unit.map Char.toLower = ['m', 'w'] then v / 1000 else v

/-- One iteration of the direct-reading loop
`m = re.search(fr"{label}.*?Power:...", s, re.I); if m: arr.append(...)`;
`none` models the uncaught `ValueError` from `float`. -/
def applyDirect (label : List Char) (s : List Char) (arr : List ℚ) : Option (List ℚ) :=
  match searchDirect label s with
  | none => some arr
  | some (num, unit) =>
    match pyFloat num with
    | none => none
    | some v => some (arr ++ [toWatts unit v])

/-! Parser state and the per-line steps of the three parsers. -/

/-- State of `parse_powermetrics_log` in `bench_lmstudio_models.py`:
`current_section` plus the three accumulator lists. -/
structure PMState where
  sec : Option Chan
  cpu : List ℚ
  gpu : List ℚ
  ane : List ℚ
deriving DecidableEq

/-- State of `parse_powermetrics_log` in
`bench_ollama_concurrent_models.py`: no ANE accumulator. -/
structure OState where
  sec : Option Chan
  cpu : List ℚ
  gpu : List ℚ
deriving DecidableEq

/-- State of `parse_watts` in `test_power_monitor.py`; `current = none`
models the local variable `current` not having been assigned yet. -/
structure WState where
  current : Option Chan
  cpu : List ℚ
  gpu : List ℚ
  ane : List ℚ
deriving DecidableEq

def pmInit : PMState := ⟨none, [], [], []⟩
def oInit : OState := ⟨none, [], []⟩
def wInit : WState := ⟨none, [], [], []⟩

/-- The value of `current_section` after the header test of a line:
set to the matched channel on a header line, kept otherwise. -/
def curSec (st : PMState) (s : List Char) : Option Chan :=
  match headerLM s with
  | some c => some c
  | none => st.sec

def curSecO (st : OState) (s : List Char) : Option Chan :=
  match headerO s with
  | some c => some c
  | none => st.sec

def curSecW (st : WState) (s : List Char) : Option Chan :=
  match headerW s with
  | some c => some c
  | none => st.current

/-- Per-line body of the `bench_lmstudio_models.py` parser, applied to
the stripped, ANSI-cleaned line: update `current_section`, run the
direct rule for CPU, GPU and ANE in that order, then the
section-relative `Average power` rule (guarded by
`if m2 and current_section`). -/
def stepLM (st : PMState) (s : List Char) : Option PMState :=
  let cur : Option Chan := curSec st s
  match applyDirect cpuLabel s st.cpu with
  | none => none
  | some cpu =>
  match applyDirect gpuLabel s st.gpu with
  | none => none
  | some gpu =>
  match applyDirect aneLabel s st.ane with
  | none => none
  | some ane =>
  match searchAvg s with
  | none => some ⟨cur, cpu, gpu, ane⟩
  | some (num, unit) =>
    match cur with
    | none => some ⟨cur, cpu, gpu, ane⟩
    | some c =>
      match pyFloat num with
      | none => none
      | some v =>
        match c with
        | .CPU => some ⟨cur, cpu ++ [toWatts unit v], gpu, ane⟩
        | .GPU => some ⟨cur, cpu, gpu ++ [toWatts unit v], ane⟩
        | .ANE => some ⟨cur, cpu, gpu, ane ++ [toWatts unit v]⟩

/-- Per-line body of the `bench_ollama_concurrent_models.py` parser:
header test without `\b`, direct rule for CPU and GPU only, and in the
average rule an `ANE` section computes the value but appends nowhere
(the `if/elif` has no ANE branch). -/
def stepO (st : OState) (s : List Char) : Option OState :=
  let cur : Option Chan := curSecO st s
  match applyDirect cpuLabel s st.cpu with
  | none => none
  | some cpu =>
  match applyDirect gpuLabel s st.gpu with
  | none => none
  | some gpu =>
  match searchAvg s with
  | none => some ⟨cur, cpu, gpu⟩
  | some (num, unit) =>
    match cur with
    | none => some ⟨cur, cpu, gpu⟩
    | some c =>
      match pyFloat num with
      | none => none
      | some v =>
        match c with
        | .CPU => some ⟨cur, cpu ++ [toWatts unit v], gpu⟩
        | .GPU => some ⟨cur, cpu, gpu ++ [toWatts unit v]⟩
        | .ANE => some ⟨cur, cpu, gpu⟩

/-- Per-line body of `parse_watts` in `test_power_monitor.py`: direct
rules first, then the case-sensitive header test, then the average rule
with **no** `and current` guard — if no header line has been seen yet,
`if current == "CPU"` raises `UnboundLocalError` (modelled by `none`). -/
def stepW (st : WState) (s : List Char) : Option WState :=
  match applyDirect cpuLabel s st.cpu with
  | none => none
  | some cpu =>
  match applyDirect gpuLabel s st.gpu with
  | none => none
  | some gpu =>
  match applyDirect aneLabel s st.ane with
  | none => none
  | some ane =>
  let cur : Option Chan := curSecW st s
  match searchAvg s with
  | none => some ⟨cur, cpu, gpu, ane⟩
  | some (num, unit) =>
    match pyFloat num with
    | none => none
    | some v =>
      match cur with
      | none => none
      | some c =>
        match c with
        | .CPU => some ⟨cur, cpu ++ [toWatts unit v], gpu, ane⟩
        | .GPU => some ⟨cur, cpu, gpu ++ [toWatts unit v], ane⟩
        | .ANE => some ⟨cur, cpu, gpu, ane ++ [toWatts unit v]⟩

/-- `s = ansi_escape.sub("", line.strip())` then the per-line body. -/
def processLineLM (st : PMState) (line : List Char) : Option PMState :=
  stepLM st (ansiSub (pstrip line))

def processLineO (st : OState) (line : List Char) : Option OState :=
  stepO st (ansiSub (pstrip line))

def processLineW (st : WState) (line : List Char) : Option WState :=
  stepW st (ansiSub (pstrip line))

/-- `for line in f:` over the log, threading the parser state;
`none` = an uncaught exception aborted the whole parse. -/
def runLM (st : PMState) : List (List Char) → Option PMState
  | [] => some st
  | l :: ls =>
    match processLineLM st l with
    | none => none
    | some st' => runLM st' ls

def runO (st : OState) : List (List Char) → Option OState
  | [] => some st
  | l :: ls =>
    match processLineO st l with
    | none => none
    | some st' => runO st' ls

def runW (st : WState) : List (List Char) → Option WState
  | [] => some st
  | l :: ls =>
    match processLineW st l with
    | none => none
    | some st' => runW st' ls

/-! The statistical reducer `stats` and the per-run result records. -/

/-- Python `min(arr)` (raises on `[]`, which the code guards with
`if arr else None`). -/
def pymin : List ℚ → Option ℚ
  | [] => none
  | x :: xs => some (xs.foldl min x)

def pymax : List ℚ → Option ℚ
  | [] => none
  | x :: xs => some (xs.foldl max x)

/-- The four-key statistics record; the record type itself guarantees
that all four keys are always present, only the values can be `none`
("unavailable"). -/
structure Stats where
  avg : Option ℚ
  max : Option ℚ
  min : Option ℚ
  samples : Nat
deriving DecidableEq

/-- The inner `stats` function of both `parse_powermetrics_log`s. -/
def stats (arr : List ℚ) : Stats :=
  { avg := if arr = [] then none else some (arr.sum / (arr.length : ℚ))
    max := pymax arr
    min := pymin arr
    samples := arr.length }

structure PMResult where
  cpu_watts : Stats
  gpu_watts : Stats
  ane_watts : Stats
deriving DecidableEq

structure OResult where
  cpu_watts : Stats
  gpu_watts : Stats
deriving DecidableEq

/-- `parse_powermetrics_log` (`bench_lmstudio_models.py`) on the list of
lines of the log. -/
def parseLM (lines : List (List Char)) : Option PMResult :=
  match runLM pmInit lines with
  | none => none
  | some st => some ⟨stats st.cpu, stats st.gpu, stats st.ane⟩

/-- `parse_powermetrics_log` (`bench_ollama_concurrent_models.py`). -/
def parseO (lines : List (List Char)) : Option OResult :=
  match runO oInit lines with
  | none => none
  | some st => some ⟨stats st.cpu, stats st.gpu⟩

/-- File-level behaviour of the `bench_lmstudio_models.py` parser:
the input is `none` when the log file is missing or unreadable, in
which case `open(path, ...)` raises `FileNotFoundError` and the
function has **no** handler, so the exception propagates (`none`). -/
def parseLMFile : Option (List (List Char)) → Option PMResult
  | none => none
  | some ls => parseLM ls

/-- File-level behaviour of the `bench_ollama_concurrent_models.py`
parser: the `except FileNotFoundError` branch executes `return {{}}`,
which is a *set display containing an empty dict*; a dict is unhashable,
so this line itself raises `TypeError` — the exception still propagates
(`none`), and no empty statistics record is ever produced. -/
def parseOFile : Option (List (List Char)) → Option OResult
  | none => none
  | some ls => parseO ls

/-! The capability probe: `detect_samplers` (`test_power_monitor.py`)
and `detect_powermetrics_samplers` (`bench_lmstudio_models.py`).  The
environment is a function from a candidate configuration to the result
of the trial invocation `powermetrics --samplers <combo> -n .. -i ..`
with `check=True`: `none` models `CalledProcessError` (non-zero exit),
`some out` a successful exit with captured standard output `out`. -/

def cpuPowerW : List Char := ['c', 'p', 'u', '_', 'p', 'o', 'w', 'e', 'r']
def gpuPowerW : List Char := ['g', 'p', 'u', '_', 'p', 'o', 'w', 'e', 'r']
def anePowerW : List Char := ['a', 'n', 'e', '_', 'p', 'o', 'w', 'e', 'r']
def cpuEnergyW : List Char := ['c', 'p', 'u', '_', 'e', 'n', 'e', 'r', 'g', 'y']
def gpuEnergyW : List Char := ['g', 'p', 'u', '_', 'e', 'n', 'e', 'r', 'g', 'y']
def allW : List Char := ['a', 'l', 'l']

/-- The fixed ordered candidate list, identical in both files. -/
def combos : List (List Char) :=
  [cpuPowerW ++ [','] ++ gpuPowerW ++ [','] ++ anePowerW,
   cpuPowerW ++ [','] ++ gpuPowerW,
   cpuEnergyW ++ [','] ++ gpuEnergyW,
   cpuPowerW,
   gpuPowerW,
   allW]

/-- The shared loop body: on `CalledProcessError` record it and try the
next candidate; on success return the candidate iff `res.stdout.strip()`
is truthy, otherwise fall through to the next candidate. -/
def detectGo (env : List Char → Option (List Char)) :
    List (List Char) → Option (List Char × List Char)
  | [] => none
  | c :: rest =>
    match env c with
    | none => detectGo env rest
    | some out => if (pstrip out).isEmpty then detectGo env rest else some (c, out)

/-- `detect_samplers` of `test_power_monitor.py`: returns
`(combo, res.stdout)` on success and `(None, "")` when every candidate
failed. -/
def detect_samplers (env : List Char → Option (List Char)) :
    Option (List Char) × List Char :=
  match detectGo env combos with
  | some (c, out) => (some c, out)
  | none => (none, [])

/-- `detect_powermetrics_samplers` of `bench_lmstudio_models.py`:
returns the combo only, `None` when every candidate failed. -/
def detect_powermetrics_samplers (env : List Char → Option (List Char)) :
    Option (List Char) :=
  match detectGo env combos with
  | some (c, _) => some c
  | none => none

/-- A candidate is usable iff its trial exits successfully and its
stripped standard output is non-empty. -/
def usableB (env : List Char → Option (List Char)) (c : List Char) : Bool :=
  match env c with
  | none => false
  | some out => !(pstrip out).isEmpty

/-- The all-candidates-fail environment, used by the probe witness. -/
def envNone : List Char → Option (List Char) := fun _ => none

/-! Model of `PowerSampler.stop` (identical in both benchmark scripts):

```
def stop(self):
    if self.proc:
        try:
            self.proc.terminate()
            try:
                self.proc.wait(timeout=3)
            except subprocess.TimeoutExpired:
                self.proc.kill()
        except Exception:
            pass
```

The `subprocess.Popen` primitives are modelled from their documented
behaviour: `send_signal` first polls, records the exit status of an
already-terminated child, and delivers the signal only when no exit
status is recorded yet; `wait(timeout=3)` reaps an exited child,
otherwise either observes the child exit within the timeout
(environment choice `exitsInGrace`) or raises `TimeoutExpired`
(modelled as `Except.error`); SIGKILL terminates the child.  Real time
is abstracted into the boolean `exitsInGrace`. -/

inductive Sig where
  | term
  | kill
deriving DecidableEq

/-- Observable state of the sampler child process: whether the OS
process still exists, whether the `Popen` object has recorded its exit
status (`returncode is not None`), and the log of signals actually
delivered to the process. -/
structure ProcWorld where
  alive : Bool
  reaped : Bool
  sigLog : List Sig
deriving DecidableEq

/-- `Popen.poll()`: record the exit status of an exited child. -/
def Popen.poll (w : ProcWorld) : ProcWorld :=
  if w.alive then w else { w with reaped := true }

/-- `Popen.send_signal(sig)` (used by `terminate()` and `kill()`):
poll first, then deliver the signal only if no exit status is recorded;
SIGKILL terminates the process. -/
def Popen.sendSignal (s : Sig) (w : ProcWorld) : ProcWorld :=
  let w' := Popen.poll w
  if w'.reaped then w'
  else { w' with
         sigLog := w'.sigLog ++ [s]
         alive := if s = .kill then false else w'.alive }

/-- `Popen.wait(timeout=3)`: reap an already-exited child; otherwise the
child exits within the timeout (`exitsInGrace`) and is reaped, or
`TimeoutExpired` is raised. -/
def Popen.wait3 (exitsInGrace : Bool) (w : ProcWorld) : Except Unit ProcWorld :=
  if !w.alive then .ok { w with reaped := true }
  else if exitsInGrace then .ok { w with alive := false, reaped := true }
  else .error ()

/-- `self.proc`: `none` iff `start()` was never called. -/
structure Sampler where
  proc : Option ProcWorld
deriving DecidableEq

/-- Body of `stop()` up to the outer `except Exception: pass`: the
inner handler turns `TimeoutExpired` into `kill()`, so the body itself
never lets an exception escape — which is what the `.ok`-only range of
this function states. -/
def PowerSampler.stopTry (exitsInGrace : Bool) (sp : Sampler) : Except Unit Sampler :=
  match sp.proc with
  | none => .ok sp
  | some w =>
    let w1 := Popen.sendSignal .term w
    match Popen.wait3 exitsInGrace w1 with
    | .ok w2 => .ok ⟨some w2⟩
    | .error _ => .ok ⟨some (Popen.sendSignal .kill w1)⟩

/-- `stop()` with the outer `except Exception: pass` applied. -/
def PowerSampler.stop (exitsInGrace : Bool) (sp : Sampler) : Sampler :=
  match PowerSampler.stopTry exitsInGrace sp with
  | .ok sp' => sp'
  | .error _ => sp

/-- The signals delivered so far to the sampler process. -/
def sigLogOf (sp : Sampler) : List Sig :=
  match sp.proc with
  | none => []
  | some w => w.sigLog

/-! Concrete input lines used by the claim theorems. -/

/-- A direct power line whose matched numeric text `1.2.3` is accepted
by the regex class but rejected by `float`. -/
def malLine : List Char :=
  ['C', 'P', 'U', ' ', 'P', 'o', 'w', 'e', 'r', ':', ' ', '1', '.', '2', '.', '3', ' ', 'W']

def c4l1 : List Char :=
  ['C', 'P', 'U', ' ', 't', 'e', 'm', 'p', 'e', 'r', 'a', 't', 'u', 'r', 'e', ':', ' ', '5', '0', 'C']
def c4l2 : List Char :=
  ['A', 'v', 'e', 'r', 'a', 'g', 'e', ' ', 'p', 'o', 'w', 'e', 'r', ':', ' ', '8', '5', '0', ' ', 'm', 'W']
def c4l3 : List Char := ['G', 'P', 'U', ' ', 'f', 'o', 'o']
def c4l4 : List Char :=
  ['A', 'v', 'e', 'r', 'a', 'g', 'e', ' ', 'p', 'o', 'w', 'e', 'r', ':', ' ', '2', '.', '1', ' ', 'W']

def c4lines : List (List Char) := [c4l1, c4l2, c4l3, c4l4]

/-! Helper lemmas about the statistical reducer. -/

lemma foldl_min_le_init (l : List ℚ) (x : ℚ) : l.foldl min x ≤ x := by
  induction l generalizing x with
  | nil => simp
  | cons y ys ih =>
    calc (y :: ys).foldl min x = ys.foldl min (min x y) := rfl
    _ ≤ min x y := ih _
    _ ≤ x := min_le_left _ _

lemma le_foldl_max_init (l : List ℚ) (x : ℚ) : x ≤ l.foldl max x := by
  induction l generalizing x with
  | nil => simp
  | cons y ys ih =>
    calc x ≤ max x y := le_max_left _ _
    _ ≤ ys.foldl max (max x y) := ih _
    _ = (y :: ys).foldl max x := rfl

lemma foldl_min_mul_le (l : List ℚ) (x : ℚ) :
    l.foldl min x * ((l.length : ℚ) + 1) ≤ x + l.sum := by
  induction l generalizing x with
  | nil => simp
  | cons y ys ih =>
    have h1 := ih (min x y)
    have h2 : ys.foldl min (min x y) ≤ min x y := foldl_min_le_init ys (min x y)
    have h3 : min x y ≤ x := min_le_left _ _
    have h4 : min x y ≤ y := min_le_right _ _
    have hfold : (y :: ys).foldl min x = ys.foldl min (min x y) := rfl
    have hlen : (((y :: ys).length : ℚ) + 1) = ((ys.length : ℚ) + 1) + 1 := by
      push_cast [List.length_cons]; ring
    have hsum : (y :: ys).sum = y + ys.sum := List.sum_cons
    rw [hfold, hlen, hsum]
    nlinarith [h1, h2, h3, h4]

lemma sum_le_foldl_max_mul (l : List ℚ) (x : ℚ) :
    x + l.sum ≤ l.foldl max x * ((l.length : ℚ) + 1) := by
  induction l generalizing x with
  | nil => simp
  | cons y ys ih =>
    have h1 := ih (max x y)
    have h2 : max x y ≤ ys.foldl max (max x y) := le_foldl_max_init ys (max x y)
    have h3 : x ≤ max x y := le_max_left _ _
    have h4 : y ≤ max x y := le_max_right _ _
    have hfold : (y :: ys).foldl max x = ys.foldl max (max x y) := rfl
    have hlen : (((y :: ys).length : ℚ) + 1) = ((ys.length : ℚ) + 1) + 1 := by
      push_cast [List.length_cons]; ring
    have hsum : (y :: ys).sum = y + ys.sum := List.sum_cons
    rw [hfold, hlen, hsum]
    nlinarith [h1, h2, h3, h4]

/-- Evaluate `ratOfNumText` on a concrete numeral text: the list and
`Nat` sides are discharged by `decide`, leaving plain rational
arithmetic. -/
lemma ratOfNumText_eval (cs : List Char) (a b k : Nat)
    (h1 : digitsVal (cs.takeWhile (fun c => c != '.')) = a)
    (h2 : digitsVal ((cs.dropWhile (fun c => c != '.')).drop 1) = b)
    (h3 : ((cs.dropWhile (fun c => c != '.')).drop 1).length = k) :
    ratOfNumText cs = (a : ℚ) + (b : ℚ) / (10 : ℚ) ^ k := by
  subst h1 h2 h3; rfl

lemma toWatts_mw (v : ℚ) : toWatts ['m', 'W'] v = v / 1000 := by
  unfold toWatts
  rw [if_pos (by decide)]

lemma toWatts_w (v : ℚ) : toWatts ['W'] v = v := by
  unfold toWatts
  rw [if_neg (by decide)]

lemma stats_unavailable_iff (arr : List ℚ) :
    (stats arr).samples = 0 ↔
      (stats arr).avg = none ∧ (stats arr).max = none ∧ (stats arr).min = none := by
  cases arr with
  | nil => simp [stats, pymin, pymax]
  | cons x xs => simp [stats, pymin, pymax]

/-! Claim theorems. -/

/-- C1: the claim says the telemetry line parser never raises — lines
with malformed matched numeric text are skipped, and a missing log file
yields an empty statistics set.  The code violates this: a missing file
makes the single-model parser propagate `FileNotFoundError` (no
handler) and makes the concurrent parser's `except` branch raise
`TypeError` (its `return` value is a set display containing an
unhashable dict), and a line whose matched numeric text is `1.2.3`
makes both parsers propagate the `ValueError` raised by `float`
(`none` = the exception escapes, instead of any statistics record). -/
theorem parser_crash_on_malformed_or_missing :
    parseLMFile none = none ∧ parseOFile none = none ∧
    parseLM [malLine] = none ∧ parseO [malLine] = none := by
  refine ⟨rfl, rfl, ?_, ?_⟩ <;> decide

/-- C2: the statistical reducer is a pure function of the reading
sequence; on a non-empty sequence it reports `count` equal to the
length, the arithmetic mean as `avg`, and satisfies
`min ≤ avg ≤ max`; on the empty sequence all three statistics are
`none` and the count is `0`. -/
theorem stats_reducer_correct (arr : List ℚ) (h : arr ≠ []) :
    (∃ mn mx av, stats arr = ⟨some av, some mx, some mn, arr.length⟩ ∧
      mn ≤ av ∧ av ≤ mx ∧ av = arr.sum / (arr.length : ℚ)) ∧
    stats [] = ⟨none, none, none, 0⟩ := by
  refine ⟨?_, rfl⟩
  match arr, h with
  | x :: xs, _ =>
    refine ⟨xs.foldl min x, xs.foldl max x, (x :: xs).sum / (((x :: xs).length : ℚ)),
      ?_, ?_, ?_, rfl⟩
    · simp [stats, pymin, pymax]
    · have hml := foldl_min_mul_le xs x
      have hn : (0 : ℚ) < ((x :: xs).length : ℚ) := by
        exact_mod_cast Nat.succ_pos xs.length
      rw [le_div_iff₀ hn]
      have hlen : ((x :: xs).length : ℚ) = (xs.length : ℚ) + 1 := by
        push_cast [List.length_cons]; ring
      rw [hlen, List.sum_cons]
      linarith [hml]
    · have hmx := sum_le_foldl_max_mul xs x
      have hn : (0 : ℚ) < ((x :: xs).length : ℚ) := by
        exact_mod_cast Nat.succ_pos xs.length
      rw [div_le_iff₀ hn]
      have hlen : ((x :: xs).length : ℚ) = (xs.length : ℚ) + 1 := by
        push_cast [List.length_cons]; ring
      rw [hlen, List.sum_cons]
      linarith [hmx]

theorem stats_reducer_correct_witness :
    (∃ mn mx av, stats [(1 : ℚ), 3, 2] = ⟨some av, some mx, some mn, ([(1 : ℚ), 3, 2]).length⟩ ∧
      mn ≤ av ∧ av ≤ mx ∧ av = ([(1 : ℚ), 3, 2]).sum / ((([(1 : ℚ), 3, 2]).length : ℚ))) ∧
    stats [] = ⟨none, none, none, 0⟩ :=
  stats_reducer_correct [(1 : ℚ), 3, 2] (by decide)

/-- C4: on the four-line log `CPU temperature: 50C` / `Average power:
850 mW` / `GPU foo` / `Average power: 2.1 W`, both benchmark parsers
attribute exactly one reading of 0.85 W to the CPU channel and exactly
one reading of 2.1 W to the GPU channel: the section state set by a
header line persists across intervening non-matching lines. -/
theorem section_state_attribution :
    runLM pmInit c4lines = some ⟨some Chan.GPU, [(17 : ℚ)/20], [(21 : ℚ)/10], []⟩ ∧
    runO oInit c4lines = some ⟨some Chan.GPU, [(17 : ℚ)/20], [(21 : ℚ)/10]⟩ := by
  have ecpu : toWatts ['m', 'W'] (ratOfNumText ['8', '5', '0']) = (17 : ℚ)/20 := by
    rw [toWatts_mw,
      ratOfNumText_eval ['8', '5', '0'] 850 0 0 (by decide) (by decide) (by decide)]
    norm_num
  have egpu : toWatts ['W'] (ratOfNumText ['2', '.', '1']) = (21 : ℚ)/10 := by
    rw [toWatts_w,
      ratOfNumText_eval ['2', '.', '1'] 2 1 1 (by decide) (by decide) (by decide)]
    norm_num
  have h1 : runLM pmInit c4lines =
      some ⟨some Chan.GPU, [toWatts ['m', 'W'] (ratOfNumText ['8', '5', '0'])],
        [toWatts ['W'] (ratOfNumText ['2', '.', '1'])], []⟩ := rfl
  have h2 : runO oInit c4lines =
      some ⟨some Chan.GPU, [toWatts ['m', 'W'] (ratOfNumText ['8', '5', '0'])],
        [toWatts ['W'] (ratOfNumText ['2', '.', '1'])]⟩ := rfl
  rw [h1, h2, ecpu, egpu]
  exact ⟨rfl, rfl⟩

/-- C5: the claim says a section-relative `Average power` line occurring
before any section header is ignored and does not fail.  The two
benchmark parsers do ignore it (their guard is
`if m2 and current_section`), but `parse_watts` in
`test_power_monitor.py` has no such guard: on the log whose first line
is `Average power: 850 mW` it evaluates `if current == "CPU"` with the
local `current` never assigned and raises `UnboundLocalError`
(modelled by `none`). -/
theorem avg_before_header_behavior :
    runW wInit [c4l2] = none ∧
    runLM pmInit [c4l2] = some ⟨none, [], [], []⟩ ∧
    runO oInit [c4l2] = some ⟨none, [], []⟩ := by
  refine ⟨?_, ?_, ?_⟩ <;> decide

/-- C6: the sampler controller's `stop()` never lets an exception
escape its body (first conjunct), is a no-op when no process was ever
started (second), sends one graceful SIGTERM and reaps the process when
it exits within the 3-second wait (third), sends SIGTERM then — only
when the process did not exit within the wait — exactly one forced
SIGKILL (fourth), delivers no signal at all when the process has
already exited (fifth), and a second `stop()` in succession never
delivers any further signal, in any state and under any environment
behaviour (sixth). -/
theorem sampler_stop_contract :
    (∀ e sp, ∃ sp', PowerSampler.stopTry e sp = Except.ok sp') ∧
    (∀ e, PowerSampler.stop e ⟨none⟩ = ⟨none⟩) ∧
    (∀ L, PowerSampler.stop true ⟨some ⟨true, false, L⟩⟩ =
      ⟨some ⟨false, true, L ++ [Sig.term]⟩⟩) ∧
    (∀ L, PowerSampler.stop false ⟨some ⟨true, false, L⟩⟩ =
      ⟨some ⟨false, false, L ++ [Sig.term, Sig.kill]⟩⟩) ∧
    (∀ e L r, sigLogOf (PowerSampler.stop e ⟨some ⟨false, r, L⟩⟩) = L) ∧
    (∀ e sp, sigLogOf (PowerSampler.stop e (PowerSampler.stop e sp)) =
      sigLogOf (PowerSampler.stop e sp)) := by
  refine ⟨?_, ?_, ?_, ?_, ?_, ?_⟩
  · intro e sp
    rcases sp with ⟨_ | w⟩
    · exact ⟨_, rfl⟩
    · cases hw : Popen.wait3 e (Popen.sendSignal .term w) <;>
        simp [PowerSampler.stopTry, hw]
  · intro e; rfl
  · intro L
    simp [PowerSampler.stop, PowerSampler.stopTry, Popen.sendSignal, Popen.poll,
      Popen.wait3]
  · intro L
    simp [PowerSampler.stop, PowerSampler.stopTry, Popen.sendSignal, Popen.poll,
      Popen.wait3]
  · intro e L r
    cases e <;> cases r <;>
      simp [PowerSampler.stop, PowerSampler.stopTry, Popen.sendSignal, Popen.poll,
        Popen.wait3, sigLogOf]
  · intro e sp
    rcases sp with ⟨_ | ⟨a, rp, L⟩⟩
    · rfl
    · cases a <;> cases rp <;> cases e <;>
        simp [PowerSampler.stop, PowerSampler.stopTry, Popen.sendSignal, Popen.poll,
          Popen.wait3, sigLogOf]

/-- The probe loop returns exactly the first candidate of the list that
is usable under `env`, paired with that candidate's captured output. -/
lemma detectGo_eq_find (env : List Char → Option (List Char)) :
    ∀ l : List (List Char),
      detectGo env l = (l.find? (usableB env)).map (fun c => (c, (env c).getD [])) := by
  intro l
  induction l with
  | nil => rfl
  | cons c rest ih =>
    cases he : env c with
    | none =>
      have hu : usableB env c = false := by simp [usableB, he]
      rw [List.find?_cons_of_neg _ (by simp [hu])]
      simpa [detectGo, he] using ih
    | some out =>
      cases hempty : (pstrip out).isEmpty with
      | true =>
        have hu : usableB env c = false := by simp [usableB, he, hempty]
        rw [List.find?_cons_of_neg _ (by simp [hu])]
        simpa [detectGo, he, hempty] using ih
      | false =>
        have hu : usableB env c = true := by simp [usableB, he, hempty]
        rw [List.find?_cons_of_pos _ (by simp [hu])]
        simp [detectGo, he, hempty]

/-- C7: the capability probe tries the fixed ordered candidate list in
order and selects the first candidate whose trial exits successfully
with non-empty (stripped) standard output, returning it together with
that output; and when every candidate fails, both probe variants return
the no-configuration value rather than raising. -/
theorem capability_probe_first_usable (env : List Char → Option (List Char)) :
    detect_powermetrics_samplers env = combos.find? (usableB env) ∧
    (detect_samplers env).1 = combos.find? (usableB env) ∧
    ((detect_samplers env).2 = match combos.find? (usableB env) with
      | some c => (env c).getD []
      | none => []) ∧
    ((∀ c ∈ combos, usableB env c = false) →
      detect_samplers env = (none, []) ∧ detect_powermetrics_samplers env = none) := by
  have h := detectGo_eq_find env combos
  have h1 : detect_powermetrics_samplers env = combos.find? (usableB env) := by
    unfold detect_powermetrics_samplers
    rw [h]
    cases combos.find? (usableB env) <;> simp
  have h2 : (detect_samplers env).1 = combos.find? (usableB env) := by
    unfold detect_samplers
    rw [h]
    cases combos.find? (usableB env) <;> simp
  have h3 : ((detect_samplers env).2 = match combos.find? (usableB env) with
      | some c => (env c).getD []
      | none => []) := by
    unfold detect_samplers
    rw [h]
    cases combos.find? (usableB env) <;> simp
  refine ⟨h1, h2, h3, ?_⟩
  intro hall
  have hnone : combos.find? (usableB env) = none := by
    rw [List.find?_eq_none]
    intro x hx
    simp [hall x hx]
  rw [hnone] at h1 h2 h3
  refine ⟨?_, h1⟩
  have h3' : (detect_samplers env).2 = [] := h3
  exact Prod.ext h2 h3'

theorem capability_probe_first_usable_witness :
    detect_samplers envNone = (none, []) ∧ detect_powermetrics_samplers envNone = none :=
  (capability_probe_first_usable envNone).2.2.2 (by decide)

/-- C8: whenever a benchmark parser returns a result at all, that
result (whose record type itself carries an entry for every recognized
channel, with all four statistics keys always present) has `min`,
`max` and `avg` equal to the unavailable value `none` exactly when the
channel recorded no samples; and on the empty log both parsers return
the all-unavailable records with `samples = 0`. -/
theorem schema_never_omitted (lines lines2 : List (List Char)) (r : PMResult)
    (r2 : OResult) (h : parseLM lines = some r) (h2 : parseO lines2 = some r2) :
    ((r.cpu_watts.samples = 0 ↔
        r.cpu_watts.avg = none ∧ r.cpu_watts.max = none ∧ r.cpu_watts.min = none) ∧
     (r.gpu_watts.samples = 0 ↔
        r.gpu_watts.avg = none ∧ r.gpu_watts.max = none ∧ r.gpu_watts.min = none) ∧
     (r.ane_watts.samples = 0 ↔
        r.ane_watts.avg = none ∧ r.ane_watts.max = none ∧ r.ane_watts.min = none)) ∧
    ((r2.cpu_watts.samples = 0 ↔
        r2.cpu_watts.avg = none ∧ r2.cpu_watts.max = none ∧ r2.cpu_watts.min = none) ∧
     (r2.gpu_watts.samples = 0 ↔
        r2.gpu_watts.avg = none ∧ r2.gpu_watts.max = none ∧ r2.gpu_watts.min = none)) ∧
    parseLM [] = some ⟨⟨none, none, none, 0⟩, ⟨none, none, none, 0⟩, ⟨none, none, none, 0⟩⟩ ∧
    parseO [] = some ⟨⟨none, none, none, 0⟩, ⟨none, none, none, 0⟩⟩ := by
  refine ⟨?_, ?_, rfl, rfl⟩
  · unfold parseLM at h
    cases hrl : runLM pmInit lines with
    | none => rw [hrl] at h; cases h
    | some st =>
      rw [hrl] at h
      cases h
      exact ⟨stats_unavailable_iff _, stats_unavailable_iff _, stats_unavailable_iff _⟩
  · unfold parseO at h2
    cases hro : runO oInit lines2 with
    | none => rw [hro] at h2; cases h2
    | some st =>
      rw [hro] at h2
      cases h2
      exact ⟨stats_unavailable_iff _, stats_unavailable_iff _⟩

/-! Scanning lemmas: evaluating the regex scans on lines built from a
concrete frame around an arbitrary numeral text. -/

/-- The characters a matched numeral text can consist of. -/
def numeralChars : List Char :=
  ['0', '1', '2', '3', '4', '5', '6', '7', '8', '9', '.']

lemma numeral_facts {c : Char} (h : c ∈ numeralChars) :
    isNumDot c = true ∧ isPySpace c = false ∧ c.toLower ≠ 'g' ∧ c.toLower ≠ 'a' ∧
      c ≠ '\x1B' := by
  fin_cases h <;> exact ⟨by decide, by decide, by decide, by decide, by decide⟩

lemma searchDirect_none_of_no_head (c0 : Char) (cs : List Char) (s : List Char)
    (h : ∀ x ∈ s, x.toLower ≠ c0.toLower) : searchDirect (c0 :: cs) s = none := by
  induction s with
  | nil => rfl
  | cons a s ih =>
    have ha : isCIc c0 a = false := by
      simp only [isCIc, beq_eq_false_iff_ne]
      exact Ne.symm (h a (List.mem_cons_self a s))
    have hsw : startsWithCI (c0 :: cs) (a :: s) = false := by
      simp [startsWithCI, ha]
    simp only [searchDirect, hsw, Bool.false_eq_true, if_false]
    exact ih fun x hx => h x (List.mem_cons_of_mem a hx)

lemma searchAvg_none_of_no_a (s : List Char)
    (h : ∀ x ∈ s, x.toLower ≠ 'a') : searchAvg s = none := by
  induction s with
  | nil => rfl
  | cons a s ih =>
    have ha : isCIc 'A' a = false := by
      simp only [isCIc, beq_eq_false_iff_ne]
      exact fun hc => (h a (List.mem_cons_self a s)) hc.symm
    have hsw : startsWithCI avgPat (a :: s) = false := by
      simp [avgPat, startsWithCI, ha]
    simp only [searchAvg, hsw, Bool.false_eq_true, if_false]
    exact ih fun x hx => h x (List.mem_cons_of_mem a hx)

lemma takeWhile_append_stop (p : Char → Bool) (l : List Char) (c : Char) (r : List Char)
    (hall : ∀ x ∈ l, p x = true) (hc : p c = false) :
    (l ++ c :: r).takeWhile p = l := by
  induction l with
  | nil => simp [List.takeWhile_cons_of_neg, hc]
  | cons a l ih =>
    have hpa : p a = true := hall a (List.mem_cons_self a l)
    simp only [List.cons_append, List.takeWhile_cons_of_pos hpa]
    rw [ih fun x hx => hall x (List.mem_cons_of_mem a hx)]

lemma dropWhile_append_stop (p : Char → Bool) (l : List Char) (c : Char) (r : List Char)
    (hall : ∀ x ∈ l, p x = true) (hc : p c = false) :
    (l ++ c :: r).dropWhile p = c :: r := by
  induction l with
  | nil => simp [List.dropWhile_cons_of_neg, hc]
  | cons a l ih =>
    have hpa : p a = true := hall a (List.mem_cons_self a l)
    simp only [List.cons_append, List.dropWhile_cons_of_pos hpa]
    exact ih fun x hx => hall x (List.mem_cons_of_mem a hx)

/-- `matchTail` on a space, an arbitrary numeral text, a space, and a
unit tail: group 1 is exactly the numeral text, and the unit matching
only looks at the tail. -/
lemma matchTail_num_space (t u : List Char) (h1 : t ≠ [])
    (h2 : ∀ x ∈ t, x ∈ numeralChars) :
    matchTail (' ' :: (t ++ (' ' :: u))) =
      (match u.dropWhile isPySpace with
      | c1 :: c2 :: _ =>
        if isCIc c1 'm' && isCIc c2 'w' then some (t, [c1, c2])
        else if isCIc c1 'w' then some (t, [c1])
        else none
      | [c1] => if isCIc c1 'w' then some (t, [c1]) else none
      | [] => none) := by
  obtain ⟨a, t', rfl⟩ := List.exists_cons_of_ne_nil h1
  have hnum : ∀ x ∈ a :: t', isNumDot x = true := fun x hx => (numeral_facts (h2 x hx)).1
  have hnsp : isPySpace a = false := (numeral_facts (h2 a (List.mem_cons_self a t'))).2.1
  simp only [matchTail]
  rw [List.dropWhile_cons_of_pos (by decide), List.cons_append,
    List.dropWhile_cons_of_neg (by simp [hnsp]), ← List.cons_append,
    takeWhile_append_stop _ _ _ _ hnum (by decide),
    dropWhile_append_stop _ _ _ _ hnum (by decide),
    if_neg (by simp), List.dropWhile_cons_of_pos (by decide)]

lemma findPowerNum_cons_neg (c : Char) (rest : List Char)
    (h1 : startsWithCI powerPat (c :: rest) = false) (h2 : c ≠ '\n') :
    findPowerNum (c :: rest) = findPowerNum rest := by
  simp [findPowerNum, h1, h2]

lemma findPowerNum_cons_pos (c : Char) (rest : List Char) (r : List Char × List Char)
    (h1 : startsWithCI powerPat (c :: rest) = true)
    (h2 : matchTail ((c :: rest).drop powerPat.length) = some r) :
    findPowerNum (c :: rest) = some r := by
  simp [findPowerNum, h1, h2]

lemma searchDirect_cons_pos (label : List Char) (c : Char) (rest : List Char)
    (r : List Char × List Char)
    (h1 : startsWithCI label (c :: rest) = true)
    (h2 : findPowerNum ((c :: rest).drop label.length) = some r) :
    searchDirect label (c :: rest) = some r := by
  simp [searchDirect, h1, h2]

/-! The concrete frame `CPU Power: <numeral> <unit>` around an
arbitrary numeral text, used by the unit-normalization claim. -/

def cpuPowerHead : List Char :=
  ['C', 'P', 'U', ' ', 'P', 'o', 'w', 'e', 'r', ':', ' ']

/-- A reading line: `CPU Power: `, a numeral text, a space, a unit. -/
def numLine (t u : List Char) : List Char := cpuPowerHead ++ (t ++ (' ' :: u))

lemma numLine_cons (t u : List Char) :
    numLine t u =
      'C' :: ('P' :: ('U' :: (' ' :: ('P' :: ('o' :: ('w' :: ('e' :: ('r' :: (':' ::
        (' ' :: (t ++ (' ' :: u)))))))))))) := by
  simp [numLine, cpuPowerHead]

lemma numLine_char_facts (t u : List Char) (h2 : ∀ x ∈ t, x ∈ numeralChars)
    (hu : ∀ x ∈ u, x ∈ (['m', 'W'] : List Char)) :
    ∀ x ∈ numLine t u, x ≠ '\x1B' ∧ x.toLower ≠ 'g' ∧ x.toLower ≠ 'a' := by
  intro x hx
  rw [numLine_cons] at hx
  simp only [List.mem_cons, List.mem_append, List.not_mem_nil, or_false] at hx
  rcases hx with rfl | rfl | rfl | rfl | rfl | rfl | rfl | rfl | rfl | rfl | rfl | hx
  · exact ⟨by decide, by decide, by decide⟩
  · exact ⟨by decide, by decide, by decide⟩
  · exact ⟨by decide, by decide, by decide⟩
  · exact ⟨by decide, by decide, by decide⟩
  · exact ⟨by decide, by decide, by decide⟩
  · exact ⟨by decide, by decide, by decide⟩
  · exact ⟨by decide, by decide, by decide⟩
  · exact ⟨by decide, by decide, by decide⟩
  · exact ⟨by decide, by decide, by decide⟩
  · exact ⟨by decide, by decide, by decide⟩
  · exact ⟨by decide, by decide, by decide⟩
  · rcases hx with hx | hx
    · have h := numeral_facts (h2 x hx)
      exact ⟨h.2.2.2.2, h.2.2.1, h.2.2.2.1⟩
    · rcases hx with rfl | hx
      · exact ⟨by decide, by decide, by decide⟩
      · have := hu x hx
        fin_cases this <;> exact ⟨by decide, by decide, by decide⟩

lemma ansiSubF_id (f : Nat) (l : List Char) (h : ∀ x ∈ l, x ≠ '\x1B') :
    ansiSubF f l = l := by
  induction l generalizing f with
  | nil => cases f <;> rfl
  | cons a l ih =>
    cases f with
    | zero => rfl
    | succ f =>
      have ha : a ≠ '\x1B' := h a (List.mem_cons_self a l)
      simp only [ansiSubF, ha, if_false, List.cons.injEq, true_and]
      exact ih f fun x hx => h x (List.mem_cons_of_mem a hx)

lemma ansiSub_id (l : List Char) (h : ∀ x ∈ l, x ≠ '\x1B') : ansiSub l = l :=
  ansiSubF_id l.length l h

lemma pstrip_numLine (t u : List Char) (hu : u = ['m', 'W'] ∨ u = ['W']) :
    pstrip (numLine t u) = numLine t u := by
  have h1 : (numLine t u).dropWhile isPySpace = numLine t u := by
    rw [numLine_cons]
    exact List.dropWhile_cons_of_neg (by decide)
  have h2 : (numLine t u).reverse.dropWhile isPySpace = (numLine t u).reverse := by
    rcases hu with rfl | rfl
    · rw [show (numLine t ['m', 'W']).reverse =
          'W' :: ('m' :: (' ' :: (t.reverse ++
            [' ', ':', 'r', 'e', 'w', 'o', 'P', ' ', 'U', 'P', 'C']))) from by
        simp [numLine, cpuPowerHead]]
      exact List.dropWhile_cons_of_neg (by decide)
    · rw [show (numLine t ['W']).reverse =
          'W' :: (' ' :: (t.reverse ++
            [' ', ':', 'r', 'e', 'w', 'o', 'P', ' ', 'U', 'P', 'C'])) from by
        simp [numLine, cpuPowerHead]]
      exact List.dropWhile_cons_of_neg (by decide)
  unfold pstrip
  rw [h1, h2, List.reverse_reverse]

lemma clean_numLine (t u : List Char) (h2 : ∀ x ∈ t, x ∈ numeralChars)
    (hu : u = ['m', 'W'] ∨ u = ['W']) :
    ansiSub (pstrip (numLine t u)) = numLine t u := by
  rw [pstrip_numLine t u hu]
  refine ansiSub_id _ fun x hx => ?_
  have hu' : ∀ x ∈ u, x ∈ (['m', 'W'] : List Char) := by
    rcases hu with rfl | rfl
    · intro x hx; exact hx
    · intro x hx; fin_cases hx <;> decide
  exact (numLine_char_facts t u h2 hu' x hx).1

lemma headerLM_numLine (t u : List Char) : headerLM (numLine t u) = some Chan.CPU := by
  rw [numLine_cons]; rfl

lemma searchDirect_cpu_numLine (t u : List Char) (r : List Char × List Char)
    (hmt : matchTail (' ' :: (t ++ (' ' :: u))) = some r) :
    searchDirect cpuLabel (numLine t u) = some r := by
  rw [numLine_cons]
  refine searchDirect_cons_pos _ _ _ _ (by rfl) ?_
  show findPowerNum (' ' :: ('P' :: ('o' :: ('w' :: ('e' :: ('r' :: (':' ::
    (' ' :: (t ++ (' ' :: u)))))))))) = some r
  rw [findPowerNum_cons_neg _ _ (by rfl) (by decide)]
  exact findPowerNum_cons_pos _ _ _ (by rfl) hmt

lemma searchDirect_gpu_numLine (t u : List Char) (h2 : ∀ x ∈ t, x ∈ numeralChars)
    (hu : ∀ x ∈ u, x ∈ (['m', 'W'] : List Char)) :
    searchDirect gpuLabel (numLine t u) = none :=
  searchDirect_none_of_no_head 'G' ['P', 'U'] _
    fun x hx => (numLine_char_facts t u h2 hu x hx).2.1

lemma searchDirect_ane_numLine (t u : List Char) (h2 : ∀ x ∈ t, x ∈ numeralChars)
    (hu : ∀ x ∈ u, x ∈ (['m', 'W'] : List Char)) :
    searchDirect aneLabel (numLine t u) = none :=
  searchDirect_none_of_no_head 'A' ['N', 'E'] _
    fun x hx => (numLine_char_facts t u h2 hu x hx).2.2

lemma searchAvg_numLine (t u : List Char) (h2 : ∀ x ∈ t, x ∈ numeralChars)
    (hu : ∀ x ∈ u, x ∈ (['m', 'W'] : List Char)) :
    searchAvg (numLine t u) = none :=
  searchAvg_none_of_no_a _ fun x hx => (numLine_char_facts t u h2 hu x hx).2.2

/-- Assembling one line whose only match is a CPU direct reading. -/
lemma stepLM_direct_cpu_only (st : PMState) (s : List Char) (n u : List Char) (v : ℚ)
    (hh : headerLM s = some Chan.CPU)
    (hc : searchDirect cpuLabel s = some (n, u))
    (hv : pyFloat n = some v)
    (hg : searchDirect gpuLabel s = none)
    (ha : searchDirect aneLabel s = none)
    (hav : searchAvg s = none) :
    stepLM st s = some ⟨some Chan.CPU, st.cpu ++ [toWatts u v], st.gpu, st.ane⟩ := by
  unfold stepLM applyDirect curSec
  simp only [hh, hc, hv, hg, ha, hav]

/-- C3: for every numeral text `t` whose `float` value is `X` and every
numeral text `tw` whose `float` value is `X / 1000`, parsing the line
`CPU Power: <t> mW` records exactly the value `X / 1000` on the CPU
channel, and parsing `CPU Power: <tw> W` records that same value:
milliwatt readings are divided by 1000, watt readings pass through
unchanged. -/
theorem unit_normalization_line (t tw : List Char) (X : ℚ)
    (ht : t ≠ []) (htc : ∀ x ∈ t, x ∈ numeralChars) (hX : pyFloat t = some X)
    (htw : tw ≠ []) (htwc : ∀ x ∈ tw, x ∈ numeralChars)
    (hXw : pyFloat tw = some (X / 1000)) (hX0 : 0 ≤ X) :
    runLM pmInit [numLine t ['m', 'W']] = some ⟨some Chan.CPU, [X / 1000], [], []⟩ ∧
    runLM pmInit [numLine tw ['W']] = some ⟨some Chan.CPU, [X / 1000], [], []⟩ := by
  have humw : ∀ x ∈ (['m', 'W'] : List Char), x ∈ (['m', 'W'] : List Char) := fun x hx => hx
  have huw : ∀ x ∈ (['W'] : List Char), x ∈ (['m', 'W'] : List Char) := by
    intro x hx; fin_cases hx <;> decide
  constructor
  · have hmt : matchTail (' ' :: (t ++ (' ' :: ['m', 'W']))) = some (t, ['m', 'W']) := by
      rw [matchTail_num_space t ['m', 'W'] ht htc]
      rfl
    have hstep := stepLM_direct_cpu_only pmInit (numLine t ['m', 'W']) t ['m', 'W'] X
      (headerLM_numLine t _)
      (searchDirect_cpu_numLine t _ _ hmt) hX
      (searchDirect_gpu_numLine t _ htc humw)
      (searchDirect_ane_numLine t _ htc humw)
      (searchAvg_numLine t _ htc humw)
    simp only [runLM, processLineLM, clean_numLine t _ htc (Or.inl rfl), hstep]
    simp [pmInit, toWatts_mw]
  · have hmt : matchTail (' ' :: (tw ++ (' ' :: ['W']))) = some (tw, ['W']) := by
      rw [matchTail_num_space tw ['W'] htw htwc]
      rfl
    have hstep := stepLM_direct_cpu_only pmInit (numLine tw ['W']) tw ['W'] (X / 1000)
      (headerLM_numLine tw _)
      (searchDirect_cpu_numLine tw _ _ hmt) hXw
      (searchDirect_gpu_numLine tw _ htwc huw)
      (searchDirect_ane_numLine tw _ htwc huw)
      (searchAvg_numLine tw _ htwc huw)
    simp only [runLM, processLineLM, clean_numLine tw _ htwc (Or.inr rfl), hstep]
    simp [pmInit, toWatts_w]

theorem unit_normalization_line_witness :
    runLM pmInit [numLine ['8', '5', '0'] ['m', 'W']] =
      some ⟨some Chan.CPU, [(850 : ℚ) / 1000], [], []⟩ ∧
    runLM pmInit [numLine ['0', '.', '8', '5'] ['W']] =
      some ⟨some Chan.CPU, [(850 : ℚ) / 1000], [], []⟩ := by
  have h850 : pyFloat ['8', '5', '0'] = some (850 : ℚ) := by
    show some (ratOfNumText ['8', '5', '0']) = some (850 : ℚ)
    rw [ratOfNumText_eval ['8', '5', '0'] 850 0 0 (by decide) (by decide) (by decide)]
    norm_num
  have h085 : pyFloat ['0', '.', '8', '5'] = some ((850 : ℚ) / 1000) := by
    show some (ratOfNumText ['0', '.', '8', '5']) = some ((850 : ℚ) / 1000)
    rw [ratOfNumText_eval ['0', '.', '8', '5'] 0 85 2 (by decide) (by decide) (by decide)]
    norm_num
  exact unit_normalization_line ['8', '5', '0'] ['0', '.', '8', '5'] 850
    (by decide) (by decide) h850 (by decide) (by decide) h085 (by norm_num)

/-- C9: on a line where the direct CPU rule and the section-relative
rule both match (and the line is a CPU header, so the section is CPU),
both rules contribute independently: two readings are appended to the
CPU channel, first the direct one, then the section-relative one. -/
theorem both_rules_contribute (st : PMState) (line n1 u1 n2 u2 : List Char) (v1 v2 : ℚ)
    (hh : headerLM (ansiSub (pstrip line)) = some Chan.CPU)
    (hd : searchDirect cpuLabel (ansiSub (pstrip line)) = some (n1, u1))
    (hv1 : pyFloat n1 = some v1)
    (hg : searchDirect gpuLabel (ansiSub (pstrip line)) = none)
    (ha : searchDirect aneLabel (ansiSub (pstrip line)) = none)
    (hav : searchAvg (ansiSub (pstrip line)) = some (n2, u2))
    (hv2 : pyFloat n2 = some v2) :
    processLineLM st line =
      some ⟨some Chan.CPU, st.cpu ++ [toWatts u1 v1, toWatts u2 v2], st.gpu, st.ane⟩ := by
  unfold processLineLM stepLM applyDirect curSec
  simp only [hh, hd, hv1, hg, ha, hav, hv2]
  simp [List.append_assoc]

/-- The both-rules line of the claim: `CPU Average Power: 5 W`. -/
def c9line : List Char :=
  ['C', 'P', 'U', ' ', 'A', 'v', 'e', 'r', 'a', 'g', 'e', ' ',
   'P', 'o', 'w', 'e', 'r', ':', ' ', '5', ' ', 'W']

theorem both_rules_contribute_witness :
    processLineLM pmInit c9line = some ⟨some Chan.CPU, [(5 : ℚ), 5], [], []⟩ := by
  have h5 : pyFloat ['5'] = some (5 : ℚ) := by
    show some (ratOfNumText ['5']) = some (5 : ℚ)
    rw [ratOfNumText_eval ['5'] 5 0 0 (by decide) (by decide) (by decide)]
    norm_num
  have h := both_rules_contribute pmInit c9line ['5'] ['W'] ['5'] ['W'] 5 5
    (by decide) (by decide) h5 (by decide) (by decide) (by decide) h5
  rw [h]
  simp [pmInit, toWatts_w]

/-! Equivalence of the two benchmark parsers (C10). -/

/-- A line is ANE-crash-free when its ANE direct match, if any, carries
a numeral text that `float` accepts — only the single-model parser
runs the ANE direct rule, so only it can crash there. -/
def aneSafe (s : List Char) : Bool :=
  match searchDirect aneLabel s with
  | none => true
  | some (num, _) => (pyFloat num).isSome

/-- One line keeps the two parsers in lockstep on the shared state,
provided the two header tests classify the line identically and the
line is ANE-crash-free. -/
lemma step_agree (st : PMState) (so : OState) (s : List Char)
    (hsec : st.sec = so.sec) (hcpu : st.cpu = so.cpu) (hgpu : st.gpu = so.gpu)
    (hh : headerLM s = headerO s) (ha : aneSafe s = true) :
    (stepLM st s = none ∧ stepO so s = none) ∨
    (∃ st' so', stepLM st s = some st' ∧ stepO so s = some so' ∧
      st'.sec = so'.sec ∧ st'.cpu = so'.cpu ∧ st'.gpu = so'.gpu) := by
  have hcur : curSecO so s = curSec st s := by
    unfold curSec curSecO
    rw [hh, hsec]
  have hane : ∃ a', applyDirect aneLabel s st.ane = some a' := by
    unfold aneSafe at ha
    unfold applyDirect
    cases hsd : searchDirect aneLabel s with
    | none => exact ⟨_, rfl⟩
    | some p =>
      obtain ⟨num, unit⟩ := p
      rw [hsd] at ha
      have ha' : (pyFloat num).isSome = true := ha
      cases hpf : pyFloat num with
      | none => rw [hpf] at ha'; simp at ha'
      | some v =>
        refine ⟨st.ane ++ [toWatts unit v], ?_⟩
        show (match pyFloat num with
          | none => none
          | some v => some (st.ane ++ [toWatts unit v])) = _
        rw [hpf]
  obtain ⟨a', hane⟩ := hane
  unfold stepLM stepO
  rw [hcur, ← hcpu, ← hgpu, hane]
  cases hc : applyDirect cpuLabel s st.cpu with
  | none => exact Or.inl ⟨rfl, rfl⟩
  | some cpu' =>
    cases hg : applyDirect gpuLabel s st.gpu with
    | none => exact Or.inl ⟨rfl, rfl⟩
    | some gpu' =>
      cases hav : searchAvg s with
      | none =>
        dsimp only
        exact Or.inr ⟨_, _, rfl, rfl, rfl, rfl, rfl⟩
      | some p =>
        obtain ⟨num, unit⟩ := p
        dsimp only
        cases hcs : curSec st s with
        | none =>
          dsimp only
          exact Or.inr ⟨_, _, rfl, rfl, rfl, rfl, rfl⟩
        | some c =>
          dsimp only
          cases hpf : pyFloat num with
          | none => exact Or.inl ⟨rfl, rfl⟩
          | some v =>
            cases c with
            | CPU =>
              dsimp only
              exact Or.inr ⟨_, _, rfl, rfl, rfl, rfl, rfl⟩
            | GPU =>
              dsimp only
              exact Or.inr ⟨_, _, rfl, rfl, rfl, rfl, rfl⟩
            | ANE =>
              dsimp only
              exact Or.inr ⟨_, _, rfl, rfl, rfl, rfl, rfl⟩

lemma runs_agree (ls : List (List Char)) :
    ∀ (st : PMState) (so : OState), st.sec = so.sec → st.cpu = so.cpu → st.gpu = so.gpu →
    (∀ l ∈ ls, headerLM (ansiSub (pstrip l)) = headerO (ansiSub (pstrip l))) →
    (∀ l ∈ ls, aneSafe (ansiSub (pstrip l)) = true) →
    (runLM st ls).map PMState.cpu = (runO so ls).map OState.cpu ∧
    (runLM st ls).map PMState.gpu = (runO so ls).map OState.gpu := by
  induction ls with
  | nil =>
    intro st so _ h2 h3 _ _
    simp [runLM, runO, h2, h3]
  | cons l ls ih =>
    intro st so h1 h2 h3 hh ha
    rcases step_agree st so (ansiSub (pstrip l)) h1 h2 h3
        (hh l (List.mem_cons_self l ls)) (ha l (List.mem_cons_self l ls)) with
      ⟨hn1, hn2⟩ | ⟨st', so', hs1, hs2, r1, r2, r3⟩
    · simp [runLM, runO, processLineLM, processLineO, hn1, hn2]
    · simp only [runLM, runO, processLineLM, processLineO, hs1, hs2]
      exact ih st' so' r1 r2 r3
        (fun x hx => hh x (List.mem_cons_of_mem l hx))
        (fun x hx => ha x (List.mem_cons_of_mem l hx))

def cexL1 : List Char := ['C', 'P', 'U', 's', ' ', 'h', 'o', 'g']
def cexL2 : List Char :=
  ['A', 'v', 'e', 'r', 'a', 'g', 'e', ' ', 'p', 'o', 'w', 'e', 'r', ':', ' ', '5', ' ', 'W']
def cexLines : List (List Char) := [cexL1, cexL2]

/-- C10 counterexample: on the log `CPUs hog` / `Average power: 5 W`
the two parsers produce different CPU sequences — the single-model
header test requires a word boundary after `CPU` and does not open a
section on `CPUs hog`, while the concurrent test does, so only the
concurrent parser records the 5 W reading. -/
theorem parsers_equiv_cex :
    ¬ ((runLM pmInit cexLines).map PMState.cpu = (runO oInit cexLines).map OState.cpu) := by
  decide

/-- C10 (amended): the two benchmark parsers produce identical CPU and
GPU watt sequences on every log in which (a) every stripped, cleaned
line is classified identically by the two section-header tests (they
differ only on lines starting with CPU/GPU/ANE followed directly by a
word character, where only the concurrent test opens a section) and
(b) no line carries an ANE direct reading whose matched numeral is
rejected by `float` (only the single-model parser runs the ANE direct
rule, so such a line crashes it alone). -/
theorem parsers_equiv_amended (ls : List (List Char))
    (hh : ∀ l ∈ ls, headerLM (ansiSub (pstrip l)) = headerO (ansiSub (pstrip l)))
    (ha : ∀ l ∈ ls, aneSafe (ansiSub (pstrip l)) = true) :
    (runLM pmInit ls).map PMState.cpu = (runO oInit ls).map OState.cpu ∧
    (runLM pmInit ls).map PMState.gpu = (runO oInit ls).map OState.gpu :=
  runs_agree ls pmInit oInit rfl rfl rfl hh ha

theorem parsers_equiv_amended_witness :
    (runLM pmInit c4lines).map PMState.cpu = (runO oInit c4lines).map OState.cpu ∧
    (runLM pmInit c4lines).map PMState.gpu = (runO oInit c4lines).map OState.gpu :=
  parsers_equiv_amended c4lines (by decide) (by decide)

theorem schema_never_omitted_witness :
    ((((⟨⟨none, none, none, 0⟩, ⟨none, none, none, 0⟩, ⟨none, none, none, 0⟩⟩ : PMResult)).cpu_watts.samples = 0 ↔
        (⟨⟨none, none, none, 0⟩, ⟨none, none, none, 0⟩, ⟨none, none, none, 0⟩⟩ : PMResult).cpu_watts.avg = none ∧
        (⟨⟨none, none, none, 0⟩, ⟨none, none, none, 0⟩, ⟨none, none, none, 0⟩⟩ : PMResult).cpu_watts.max = none ∧
        (⟨⟨none, none, none, 0⟩, ⟨none, none, none, 0⟩, ⟨none, none, none, 0⟩⟩ : PMResult).cpu_watts.min = none) ∧
     ((⟨⟨none, none, none, 0⟩, ⟨none, none, none, 0⟩, ⟨none, none, none, 0⟩⟩ : PMResult).gpu_watts.samples = 0 ↔
        (⟨⟨none, none, none, 0⟩, ⟨none, none, none, 0⟩, ⟨none, none, none, 0⟩⟩ : PMResult).gpu_watts.avg = none ∧
        (⟨⟨none, none, none, 0⟩, ⟨none, none, none, 0⟩, ⟨none, none, none, 0⟩⟩ : PMResult).gpu_watts.max = none ∧
        (⟨⟨none, none, none, 0⟩, ⟨none, none, none, 0⟩, ⟨none, none, none, 0⟩⟩ : PMResult).gpu_watts.min = none) ∧
     ((⟨⟨none, none, none, 0⟩, ⟨none, none, none, 0⟩, ⟨none, none, none, 0⟩⟩ : PMResult).ane_watts.samples = 0 ↔
        (⟨⟨none, none, none, 0⟩, ⟨none, none, none, 0⟩, ⟨none, none, none, 0⟩⟩ : PMResult).ane_watts.avg = none ∧
        (⟨⟨none, none, none, 0⟩, ⟨none, none, none, 0⟩, ⟨none, none, none, 0⟩⟩ : PMResult).ane_watts.max = none ∧
        (⟨⟨none, none, none, 0⟩, ⟨none, none, none, 0⟩, ⟨none, none, none, 0⟩⟩ : PMResult).ane_watts.min = none)) ∧
    (((⟨⟨none, none, none, 0⟩, ⟨none, none, none, 0⟩⟩ : OResult).cpu_watts.samples = 0 ↔
        (⟨⟨none, none, none, 0⟩, ⟨none, none, none, 0⟩⟩ : OResult).cpu_watts.avg = none ∧
        (⟨⟨none, none, none, 0⟩, ⟨none, none, none, 0⟩⟩ : OResult).cpu_watts.max = none ∧
        (⟨⟨none, none, none, 0⟩, ⟨none, none, none, 0⟩⟩ : OResult).cpu_watts.min = none) ∧
     ((⟨⟨none, none, none, 0⟩, ⟨none, none, none, 0⟩⟩ : OResult).gpu_watts.samples = 0 ↔
        (⟨⟨none, none, none, 0⟩, ⟨none, none, none, 0⟩⟩ : OResult).gpu_watts.avg = none ∧
        (⟨⟨none, none, none, 0⟩, ⟨none, none, none, 0⟩⟩ : OResult).gpu_watts.max = none ∧
        (⟨⟨none, none, none, 0⟩, ⟨none, none, none, 0⟩⟩ : OResult).gpu_watts.min = none)) ∧
    parseLM [] = some ⟨⟨none, none, none, 0⟩, ⟨none, none, none, 0⟩, ⟨none, none, none, 0⟩⟩ ∧
    parseO [] = some ⟨⟨none, none, none, 0⟩, ⟨none, none, none, 0⟩⟩ :=
  schema_never_omitted [[]] [[]] _ _ (by decide) (by decide)

end LMBench
